import Mathlib

/-!
Verification development for a Gin-based HTTP demo repository.

The repository registers routes on a gin router, attaches middlewares
(`Authenticate`, `AddHeader`, `gin.BasicAuth`), and defines JSON handlers.
We shallowly embed the request/response data model, the repository's
middlewares and handlers (translated from the Go source), and — for the
dispatch core whose code lives in the gin framework rather than in this
repository — definitions modelled from the specification (route table,
middleware chain executor, group registration).
-/

namespace GinSpec

/-- JSON values appearing in the repository's `gin.H` response maps:
strings and integers only. -/
inductive JsonVal where
  | jstr : String → JsonVal
  | jnum : Int → JsonVal
deriving DecidableEq, Repr

/-- Result of `io.ReadAll` on the request body: the bytes, or an error. -/
inductive BodyRead where
  | ok : String → BodyRead
  | err : String → BodyRead
deriving DecidableEq, Repr

/-- Inbound request data threaded through the chain: method, path,
header map, query map, and the result of reading the body. -/
structure Request where
  method : String
  path : String
  headers : List (String × String)
  query : List (String × String)
  body : BodyRead
deriving DecidableEq, Repr

/-- First-match association-list lookup, the model of a header/param map. -/
def lookupKV (k : String) : List (String × String) → Option String
  | [] => none
  | (k', v) :: t => if k' = k then some v else lookupKV k t

/-- `http.Header.Get` / `ctx.Query` / `ctx.Param` semantics: the stored
value, or the empty string when the key is absent. -/
def headerGet (hs : List (String × String)) (k : String) : String :=
  match lookupKV k hs with
  | some v => v
  | none => ""

/-- `http.Header.Set` semantics: replace any existing value for the key. -/
def setHeader (hs : List (String × String)) (k v : String) : List (String × String) :=
  (k, v) :: hs.filter (fun p => p.1 ≠ k)

/-- The per-request context: request data, bound path parameters, and the
mutable response builder (status, headers, JSON body), plus the
short-circuit flag set by `ctx.Abort…`. -/
structure Context where
  request : Request
  params : List (String × String)
  status : Nat
  respHeaders : List (String × String)
  respBody : List (String × JsonVal)
  aborted : Bool
deriving DecidableEq, Repr

/-- The dispatcher creates a fresh context for each inbound request. -/
def mkContext (req : Request) (ps : List (String × String)) : Context :=
  { request := req, params := ps, status := 200, respHeaders := [],
    respBody := [], aborted := false }

/-- `ctx.JSON(status, body)`. -/
def writeJSON (st : Nat) (body : List (String × JsonVal)) (c : Context) : Context :=
  { c with status := st, respBody := body }

/-- `ctx.AbortWithStatusJSON(status, body)`: writes the response and marks
the chain as short-circuited. -/
def abortWithStatusJSON (st : Nat) (body : List (String × JsonVal)) (c : Context) : Context :=
  { c with status := st, respBody := body, aborted := true }

/-- `ctx.AbortWithStatus(status)`. -/
def abortWithStatus (st : Nat) (c : Context) : Context :=
  { c with status := st, aborted := true }

abbrev Middleware := Context → Context

abbrev Handler := Context → Context

/-- `middlewares.Authenticate` from `src/middlewares/logger.middleware.go`:
aborts with 500 and the message body unless the `Token` header is exactly
`auth`; otherwise continues. -/
def Authenticate (c : Context) : Context :=
  if ¬(headerGet c.request.headers "Token" = "auth") then
    abortWithStatusJSON 500 [("Message", JsonVal.jstr "Token Not Present! 🔴")] c
  else
    c

/-- `middlewares.AddHeader` from `src/middlewares/logger.middleware.go`:
sets response header `Key: Val` and continues. -/
def AddHeader (c : Context) : Context :=
  { c with respHeaders := setHeader c.respHeaders "Key" "Val" }

/-- `GetDatahandler` from the middleware demo program. -/
def GetDatahandler (c : Context) : Context :=
  writeJSON 200
    [("data", JsonVal.jstr "Hi! I am GetDataHandler method() 🟢"),
     ("status_code", JsonVal.jnum 200)] c

/-- `GetData1handler` from the middleware demo program. -/
def GetData1handler (c : Context) : Context :=
  writeJSON 200
    [("data", JsonVal.jstr "Hi! I am GetData1Handler method() 🔵"),
     ("status_code", JsonVal.jnum 200)] c

/-- `GetData2handler` from the middleware demo program. -/
def GetData2handler (c : Context) : Context :=
  writeJSON 200
    [("data", JsonVal.jstr "Hi! I am GetData2Handler method() 🟡"),
     ("status_code", JsonVal.jnum 200)] c

/-- The `/ping` handler from the repository's walkthrough documents:
`c.JSON(200, gin.H\x7b"message": "pong"\x7d)`. -/
def pingHandler (c : Context) : Context :=
  writeJSON 200 [("message", JsonVal.jstr "pong")] c

/-- `GetBodyDataHandler` from `src/main.go`. On a body-read error it writes
a 500 JSON response and then calls `log.Fatal`, which terminates the whole
process; the second component records whether `log.Fatal` was reached. -/
def GetBodyDataHandler (c : Context) : Context × Bool :=
  match c.request.body with
  | BodyRead.err e =>
      (writeJSON 500
        [("ERROR ⚠️", JsonVal.jstr e), ("status", JsonVal.jnum 500)] c, true)
  | BodyRead.ok val =>
      (writeJSON 200
        [("bodyData", JsonVal.jstr val), ("status", JsonVal.jnum 200)] c, false)

/-- `GetQryDataHandler` from `src/main.go`: echoes the `name` and `age`
query parameters. -/
def GetQryDataHandler (c : Context) : Context :=
  writeJSON 200
    [("data", JsonVal.jstr "Getting data from Query-Params 🟢"),
     ("name", JsonVal.jstr (headerGet c.request.query "name")),
     ("age", JsonVal.jstr (headerGet c.request.query "age")),
     ("status", JsonVal.jnum 200)] c

/-- `GetUrlDataHandler` from `src/main.go`: echoes the `name` and `age`
path parameters. -/
def GetUrlDataHandler (c : Context) : Context :=
  writeJSON 200
    [("data", JsonVal.jstr "Getting data from URL params 🔵"),
     ("name", JsonVal.jstr (headerGet c.params "name")),
     ("age", JsonVal.jstr (headerGet c.params "age")),
     ("status", JsonVal.jnum 200)] c

/-- Modelled from the spec: the Middleware Chain Executor (the gin
framework's `Context.Next` loop is not part of this repository). Runs the
chain in order; after each link, an aborted context stops the chain. The
result carries the final context, the 0-based indices of the links that
ran (starting at `i`), and how many times the terminal handler executed. -/
def execChain : List Middleware → Handler → Context → Nat → Context × (List Nat × Nat)
  | [], h, c, _ => (h c, ([], 1))
  | m :: ms, h, c, i =>
      let c2 := m c
      if c2.aborted then (c2, ([i], 0))
      else
        let r := execChain ms h c2 (i + 1)
        (r.1, (i :: r.2.1, r.2.2))

/-- Folding a middleware prefix over a context: the state after those
links have run. -/
def applyMWs (ms : List Middleware) (c : Context) : Context :=
  ms.foldl (fun a m => m a) c

/-- A path-pattern segment: a literal, or a named parameter (`:name`). -/
inductive Segment where
  | lit : String → Segment
  | param : String → Segment
deriving DecidableEq, Repr

/-- A route-table entry: method and pattern (the registered key). -/
structure Route where
  method : String
  pattern : List Segment
deriving DecidableEq, Repr

/-- Modelled from the spec: the Route Table's segment-by-segment matching
(the gin routing tree is not part of this repository). Literal segments
must match exactly; a named-parameter segment matches any single
non-empty path segment and binds its value. -/
def matchSegs : List Segment → List String → Option (List (String × String))
  | [], [] => some []
  | Segment.lit s :: ps, x :: xs =>
      if s = x then matchSegs ps xs else none
  | Segment.param n :: ps, x :: xs =>
      if x = "" then none
      else
        match matchSegs ps xs with
        | some bs => some ((n, x) :: bs)
        | none => none
  | _, _ => none

/-- Modelled from the spec: pattern priority — at the first position where
the two patterns differ in kind, a literal segment beats a parameter
segment (static beats dynamic). -/
def prefersOver : List Segment → List Segment → Bool
  | Segment.lit _ :: _, Segment.param _ :: _ => true
  | Segment.lit _ :: as, Segment.lit _ :: bs => prefersOver as bs
  | Segment.param _ :: as, Segment.param _ :: bs => prefersOver as bs
  | _, _ => false

/-- One step of route resolution: keep the best match seen so far,
replacing it only when the candidate matches and is more static. -/
def pickRoute (method : String) (path : List String)
    (best : Option (Route × List (String × String))) (r : Route) :
    Option (Route × List (String × String)) :=
  if r.method = method then
    match matchSegs r.pattern path with
    | some bs =>
        match best with
        | none => some (r, bs)
        | some (b, bbs) =>
            if prefersOver r.pattern b.pattern then some (r, bs) else some (b, bbs)
    | none => best
  else best

/-- Modelled from the spec: `resolve(method, path)` returns the matched
route and its path-parameter bindings, preferring static over dynamic. -/
def resolve (table : List Route) (method : String) (path : List String) :
    Option (Route × List (String × String)) :=
  table.foldl (pickRoute method path) none

/-- Modelled from the spec: `register(method, pattern)` fails with
`DuplicateRouteError` when an identical (method, pattern) pair already
exists, leaving the table unchanged; otherwise appends the route. -/
def register (t : List Route) (r : Route) : List Route × Option String :=
  if t.any (fun x => decide (x.method = r.method ∧ x.pattern = r.pattern)) then
    (t, some "DuplicateRouteError")
  else
    (t ++ [r], none)

/-- Modelled from the spec: a route group — accumulated path prefix plus
inherited middleware chain (gin's `RouterGroup` is not part of this
repository). -/
structure RouterGroup where
  basePath : String
  chain : List Middleware

/-- Modelled from the spec: `router.Group(prefix, mws...)` — prefixes
concatenate and inherited chains concatenate in outer-to-inner order. -/
def RouterGroup.group (g : RouterGroup) (p : String) (ms : List Middleware) : RouterGroup :=
  { basePath := g.basePath ++ p, chain := g.chain ++ ms }

/-- A registered route as produced by group registration: full path and
the effective middleware chain ending in the terminal handler. -/
structure RegisteredRoute where
  method : String
  path : String
  chain : List Middleware
  handler : Handler

/-- Modelled from the spec: registering a route on a group — the effective
chain is (inherited chain ++ route-specific chain), in registration
order. -/
def RouterGroup.handle (g : RouterGroup) (method p : String)
    (ms : List Middleware) (h : Handler) : RegisteredRoute :=
  { method := method, path := g.basePath ++ p, chain := g.chain ++ ms, handler := h }

/-- UTF-8 encoding of one character, as byte values. -/
def utf8Bytes (c : Char) : List Nat :=
  let n := c.toNat
  if n < 128 then [n]
  else if n < 2048 then [192 + n / 64, 128 + n % 64]
  else if n < 65536 then [224 + n / 4096, 128 + n / 64 % 64, 128 + n % 64]
  else [240 + n / 262144, 128 + n / 4096 % 64, 128 + n / 64 % 64, 128 + n % 64]

/-- UTF-8 bytes of a string. -/
def strBytes (s : String) : List Nat :=
  (s.toList.map utf8Bytes).flatten

/-- The standard base64 alphabet. -/
def b64alpha : List Char :=
  "ABCDEFGHIJKLMNOPQRSTUVWXYZabcdefghijklmnopqrstuvwxyz0123456789+/".toList

/-- Character of the base64 alphabet at the given 6-bit index. -/
def b64char (n : Nat) : Char := b64alpha.getD n '?'

/-- Standard base64 of a byte list, with `=` padding. -/
def base64Bytes : List Nat → List Char
  | [] => []
  | [a] => [b64char (a / 4), b64char (a % 4 * 16), '=', '=']
  | [a, b] => [b64char (a / 4), b64char (a % 4 * 16 + b / 16), b64char (b % 16 * 4), '=']
  | a :: b :: c :: rest =>
      b64char (a / 4) :: b64char (a % 4 * 16 + b / 16) ::
        b64char (b % 16 * 4 + c / 64) :: b64char (c % 64) :: base64Bytes rest

/-- Base64 of a string's UTF-8 bytes, as used in the Basic-Auth header. -/
def base64Encode (s : String) : String :=
  String.mk (base64Bytes (strBytes s))

/-- The fixed account set configured in `src/main.go`'s `gin.Accounts`. -/
def accounts : List (String × String) :=
  [("user", "passw"), ("user1", "passw1"), ("user2", "passw2")]

/-- The credential header value sent for a username/password pair. -/
def authValue (u p : String) : String :=
  "Basic " ++ base64Encode (u ++ ":" ++ p)

/-- Modelled from the spec: `gin.BasicAuth(accounts)` (the gin framework's
implementation is not part of this repository) — continues when the
`Authorization` header carries a credential of the configured set,
otherwise aborts the chain with 401. -/
def basicAuth (accs : List (String × String)) (c : Context) : Context :=
  if accs.any (fun up => decide (authValue up.1 up.2 = headerGet c.request.headers "Authorization")) then
    c
  else
    abortWithStatus 401 c

/-- Hexadecimal digit for a 4-bit value. -/
def hexDigit (n : Nat) : Char := "0123456789abcdef".toList.getD n '0'

/-- Per-character JSON string escaping as `encoding/json` performs it
(quotes, backslash, control characters, and the HTML-escaped `<`, `>`,
`&`); all other characters pass through. -/
def escapeChar (ch : Char) : List Char :=
  if ch = '"' then ['\\', '"']
  else if ch = '\\' then ['\\', '\\']
  else if ch = '\n' then ['\\', 'n']
  else if ch = '\r' then ['\\', 'r']
  else if ch = '\t' then ['\\', 't']
  else if ch.toNat < 32 then ['\\', 'u', '0', '0', hexDigit (ch.toNat / 16), hexDigit (ch.toNat % 16)]
  else if ch = '<' then ['\\', 'u', '0', '0', '3', 'c']
  else if ch = '>' then ['\\', 'u', '0', '0', '3', 'e']
  else if ch = '&' then ['\\', 'u', '0', '0', '2', '6']
  else [ch]

/-- A JSON-quoted string literal. -/
def jsonQuote (s : String) : String :=
  "\"" ++ String.mk ((s.toList.map escapeChar).flatten) ++ "\""

/-- Serialization of one JSON value. -/
def renderVal : JsonVal → String
  | JsonVal.jstr s => jsonQuote s
  | JsonVal.jnum n => toString n

/-- Byte-wise string order, as Go's `sort.Strings` orders map keys. -/
def bytesLt : List Nat → List Nat → Bool
  | [], [] => false
  | [], _ :: _ => true
  | _ :: _, [] => false
  | a :: as, b :: bs => if a < b then true else if b < a then false else bytesLt as bs

/-- Insertion into a key-sorted pair list. -/
def insertSorted (p : String × JsonVal) : List (String × JsonVal) → List (String × JsonVal)
  | [] => [p]
  | q :: t => if bytesLt (strBytes q.1) (strBytes p.1) then q :: insertSorted p t else p :: q :: t

/-- Key-sorting of a pair list, mirroring `encoding/json`'s sorted output
of Go map keys. -/
def sortPairs (l : List (String × JsonVal)) : List (String × JsonVal) :=
  l.foldr insertSorted []

/-- Serialization of a `gin.H` response map: keys sorted byte-wise, then
rendered as a JSON object, exactly as `encoding/json` marshals a Go map. -/
def renderJSON (kvs : List (String × JsonVal)) : String :=
  "\x7b" ++ String.intercalate "," ((sortPairs kvs).map (fun p => jsonQuote p.1 ++ ":" ++ renderVal p.2)) ++ "\x7d"

/-- A request carrying the expected token header. -/
def tokenReq : Request :=
  { method := "GET", path := "/getData", headers := [("Token", "auth")],
    query := [], body := BodyRead.ok "" }

/-- A request with no token header. -/
def noTokenReq : Request :=
  { method := "GET", path := "/getData", headers := [],
    query := [], body := BodyRead.ok "" }

/-- A request whose body read fails. -/
def badBodyReq : Request :=
  { method := "GET", path := "/get-body-data", headers := [],
    query := [], body := BodyRead.err "unexpected EOF" }

/-- A request carrying the `user:passw` Basic-Auth credential. -/
def adminReq : Request :=
  { method := "GET", path := "/admin/get-QryStr",
    headers := [("Authorization", "Basic dXNlcjpwYXNzdw==")],
    query := [], body := BodyRead.ok "" }

/-- A context carrying a pre-existing response header, used to observe
frame conditions. -/
def sampleCtx : Context :=
  { request := noTokenReq, params := [], status := 200,
    respHeaders := [("Other", "x")], respBody := [], aborted := false }

/- ---------------------------------------------------------------- -/
/- Helper lemmas                                                     -/
/- ---------------------------------------------------------------- -/

theorem applyMWs_nil (c : Context) : applyMWs [] c = c := rfl

theorem applyMWs_cons (m : Middleware) (ms : List Middleware) (c : Context) :
    applyMWs (m :: ms) c = applyMWs ms (m c) := rfl

/-- Case analysis on the chain executor: either the whole chain runs and
the handler fires once, or some prefix runs, its last link aborts, and
execution stops with that link's context. -/
theorem execChain_cases (ms : List Middleware) (h : Handler) :
    ∀ (c : Context) (i : Nat),
      execChain ms h c i = (h (applyMWs ms c), (List.range' i ms.length, 1))
      ∨ ∃ k, k < ms.length ∧ (applyMWs (ms.take (k + 1)) c).aborted = true ∧
          execChain ms h c i = (applyMWs (ms.take (k + 1)) c, (List.range' i (k + 1), 0)) := by
  induction ms with
  | nil =>
      intro c i
      left
      simp [execChain, applyMWs]
  | cons m ms ih =>
      intro c i
      by_cases hab : (m c).aborted
      · right
        refine ⟨0, Nat.succ_pos _, ?_, ?_⟩
        · simpa [applyMWs] using hab
        · simp [execChain, hab, applyMWs, List.range']
      · rcases ih (m c) (i + 1) with hA | ⟨k, hk, habk, hEq⟩
        · left
          simp only [execChain, applyMWs_cons]
          rw [if_neg (by simpa using hab), hA]
          simp [List.range'_succ]
        · right
          refine ⟨k + 1, by simpa using Nat.succ_lt_succ hk, ?_, ?_⟩
          · simpa [applyMWs_cons] using habk
          · simp only [execChain, List.take_succ_cons, applyMWs_cons]
            rw [if_neg (by simpa using hab), hEq]
            simp [List.range'_succ]

/-- Filtering out one key leaves every other key's first binding
untouched. -/
theorem lookupKV_filter_ne (k key : String) (hne : k ≠ key) :
    ∀ hs : List (String × String),
      lookupKV k (hs.filter (fun p => p.1 ≠ key)) = lookupKV k hs
  | [] => rfl
  | (k', v) :: t => by
      by_cases hk' : k' = key
      · have h1 : ((k', v) :: t).filter (fun p => p.1 ≠ key)
            = t.filter (fun p => p.1 ≠ key) := by
          simp [List.filter_cons, hk']
        have h2 : k' ≠ k := fun h => hne (h ▸ hk')
        rw [h1, lookupKV_filter_ne k key hne t]
        show lookupKV k t = if k' = k then some v else lookupKV k t
        rw [if_neg h2]
      · have h1 : ((k', v) :: t).filter (fun p => p.1 ≠ key)
            = (k', v) :: t.filter (fun p => p.1 ≠ key) := by
          simp [List.filter_cons, hk']
        rw [h1]
        show (if k' = k then some v else lookupKV k (t.filter (fun p => p.1 ≠ key)))
            = (if k' = k then some v else lookupKV k t)
        rw [lookupKV_filter_ne k key hne t]

/-- A successful segment match binds every named-parameter segment to the
exact (non-empty) path segment at the same position. -/
theorem matchSegs_binds :
    ∀ (ps : List Segment) (xs : List String) (bs : List (String × String)),
      matchSegs ps xs = some bs →
      ∀ (i : Nat) (n : String), ps[i]? = some (Segment.param n) →
      ∃ x, xs[i]? = some x ∧ x ≠ "" ∧ (n, x) ∈ bs
  | [], _, _, _, i, n, hp => by simp at hp
  | Segment.lit _ :: _, [], _, hm, _, _, _ => by simp [matchSegs] at hm
  | Segment.lit _ :: _, _ :: _, _, _, 0, _, hp => by simp at hp
  | Segment.lit s :: ps, x :: xs, bs, hm, Nat.succ i, n, hp => by
      have hm' : matchSegs ps xs = some bs := by
        by_cases hsx : s = x
        · simpa [matchSegs, hsx] using hm
        · simp [matchSegs, hsx] at hm
      have hp' : ps[i]? = some (Segment.param n) := by simpa using hp
      obtain ⟨y, hy, hy0, hmem⟩ := matchSegs_binds ps xs bs hm' i n hp'
      exact ⟨y, by simpa using hy, hy0, hmem⟩
  | Segment.param _ :: _, [], _, hm, _, _, _ => by simp [matchSegs] at hm
  | Segment.param m :: ps, x :: xs, bs, hm, 0, n, hp => by
      have hmn : m = n := by simpa using hp
      by_cases hx : x = ""
      · simp [matchSegs, hx] at hm
      · cases hbs : matchSegs ps xs with
        | none => simp [matchSegs, hx, hbs] at hm
        | some bs' =>
            have hbseq : (m, x) :: bs' = bs := by simpa [matchSegs, hx, hbs] using hm
            subst hmn
            exact ⟨x, by simp, hx, by rw [← hbseq]; exact List.mem_cons_self _ _⟩
  | Segment.param m :: ps, x :: xs, bs, hm, Nat.succ i, n, hp => by
      have hp' : ps[i]? = some (Segment.param n) := by simpa using hp
      by_cases hx : x = ""
      · simp [matchSegs, hx] at hm
      · cases hbs : matchSegs ps xs with
        | none => simp [matchSegs, hx, hbs] at hm
        | some bs' =>
            have hbseq : (m, x) :: bs' = bs := by simpa [matchSegs, hx, hbs] using hm
            obtain ⟨y, hy, hy0, hmem⟩ := matchSegs_binds ps xs bs' hbs i n hp'
            exact ⟨y, by simpa using hy, hy0, by rw [← hbseq]; exact List.mem_cons_of_mem _ hmem⟩

/-- Pattern priority only depends on the suffixes after a shared prefix. -/
theorem prefersOver_append :
    ∀ (pre a b : List Segment), prefersOver (pre ++ a) (pre ++ b) = prefersOver a b
  | [], _, _ => rfl
  | Segment.lit _ :: pre, a, b => by
      show prefersOver (pre ++ a) (pre ++ b) = prefersOver a b
      exact prefersOver_append pre a b
  | Segment.param _ :: pre, a, b => by
      show prefersOver (pre ++ a) (pre ++ b) = prefersOver a b
      exact prefersOver_append pre a b

/- ---------------------------------------------------------------- -/
/- Claims                                                            -/
/- ---------------------------------------------------------------- -/

/-- C1: for every request dispatched to a chain [m1..mn] with terminal
handler h, exactly one of two outcomes holds: either every link runs (the
executed indices are all of `0..n-1`) and h executes exactly once, or some
link k short-circuits — every link up to and including k runs, none after
it runs, h never runs, and the final response is exactly the context link
k wrote. -/
theorem C1_chain_runs_once_or_short_circuits
    (ms : List Middleware) (h : Handler) (req : Request) (ps : List (String × String)) :
    execChain ms h (mkContext req ps) 0
        = (h (applyMWs ms (mkContext req ps)), (List.range ms.length, 1))
    ∨ ∃ k, k < ms.length ∧ (applyMWs (ms.take (k + 1)) (mkContext req ps)).aborted = true ∧
        execChain ms h (mkContext req ps) 0
          = (applyMWs (ms.take (k + 1)) (mkContext req ps), (List.range (k + 1), 0)) := by
  rcases execChain_cases ms h (mkContext req ps) 0 with hA | ⟨k, hk, hab, hEq⟩
  · left
    simpa [List.range_eq_range'] using hA
  · right
    exact ⟨k, hk, hab, by simpa [List.range_eq_range'] using hEq⟩

/-- C5: a route registered under nested groups gets path
(outer prefix ++ inner prefix ++ route path) and effective chain
(outer inherited ++ inner inherited ++ route-specific), in registration
order; the single-group case is the instance with one nesting level. -/
theorem C5_group_effective_chain
    (root : RouterGroup) (p1 p2 p : String) (c1 c2 cr : List Middleware)
    (method : String) (h : Handler) :
    ((root.group p1 c1).group p2 c2).handle method p cr h
        = { method := method, path := root.basePath ++ p1 ++ p2 ++ p,
            chain := root.chain ++ c1 ++ c2 ++ cr, handler := h }
    ∧ (root.group p1 c1).handle method p cr h
        = { method := method, path := root.basePath ++ p1 ++ p,
            chain := root.chain ++ c1 ++ cr, handler := h } :=
  ⟨rfl, rfl⟩

/-- C7: registering a (method, pattern) pair identical to an existing one
fails with `DuplicateRouteError` and leaves the route table unchanged, so
every previously registered route still resolves exactly as before. -/
theorem C7_duplicate_registration_rejected (t : List Route) (r : Route)
    (hd : ∃ x ∈ t, x.method = r.method ∧ x.pattern = r.pattern) :
    register t r = (t, some "DuplicateRouteError")
    ∧ ∀ (m : String) (p : List String), resolve (register t r).1 m p = resolve t m p := by
  have hany : t.any (fun x => decide (x.method = r.method ∧ x.pattern = r.pattern)) = true := by
    rcases hd with ⟨x, hx, h1, h2⟩
    exact List.any_eq_true.mpr ⟨x, hx, by simp [h1, h2]⟩
  have hreg : register t r = (t, some "DuplicateRouteError") := by
    unfold register
    rw [if_pos hany]
  exact ⟨hreg, fun m p => by rw [hreg]⟩

/-- C7 witness: registering `GET /getData` twice fails and the table still
resolves `GET /getData` as before. -/
theorem C7_witness :
    register [⟨"GET", [Segment.lit "getData"]⟩] ⟨"GET", [Segment.lit "getData"]⟩
        = ([⟨"GET", [Segment.lit "getData"]⟩], some "DuplicateRouteError")
    ∧ resolve (register [⟨"GET", [Segment.lit "getData"]⟩] ⟨"GET", [Segment.lit "getData"]⟩).1
          "GET" ["getData"]
        = resolve [⟨"GET", [Segment.lit "getData"]⟩] "GET" ["getData"] := by
  have h := C7_duplicate_registration_rejected
    [⟨"GET", [Segment.lit "getData"]⟩] ⟨"GET", [Segment.lit "getData"]⟩
    ⟨⟨"GET", [Segment.lit "getData"]⟩, by simp, rfl, rfl⟩
  exact ⟨h.1, h.2 "GET" ["getData"]⟩

/-- C8 counterexample: the `/ping` handler's JSON body is
`\x7b"message":"pong"\x7d` — it carries no `"status":200` member, so the
claimed body `\x7b"message":"pong","status":200\x7d` is wrong. -/
theorem C8_counterexample :
    (pingHandler (mkContext noTokenReq [])).respBody = [("message", JsonVal.jstr "pong")]
    ∧ (pingHandler (mkContext noTokenReq [])).respBody
        ≠ [("message", JsonVal.jstr "pong"), ("status", JsonVal.jnum 200)]
    ∧ renderJSON (pingHandler (mkContext noTokenReq [])).respBody
        ≠ "\x7b\"message\":\"pong\",\"status\":200\x7d" := by
  refine ⟨rfl, by decide, by decide⟩

/-- C8 (amended): a GET request to `/ping` returns status 200 with the
JSON body `\x7b"message":"pong"\x7d`. -/
theorem C8_ping_response (req : Request) (ps : List (String × String)) :
    (pingHandler (mkContext req ps)).status = 200
    ∧ (pingHandler (mkContext req ps)).respBody = [("message", JsonVal.jstr "pong")]
    ∧ renderJSON (pingHandler (mkContext req ps)).respBody = "\x7b\"message\":\"pong\"\x7d" := by
  refine ⟨rfl, rfl, ?_⟩
  have hb : (pingHandler (mkContext req ps)).respBody = [("message", JsonVal.jstr "pong")] := rfl
  rw [hb]
  decide

/-- C2 counterexample: on a request without the `Token` header, the chain
aborts with the message `Token Not Present! 🔴` (the source string carries
a trailing emoji), not the claimed `Token Not Present!`. -/
theorem C2_counterexample :
    (execChain [Authenticate, AddHeader] GetDatahandler (mkContext noTokenReq []) 0).1.respBody
        = [("Message", JsonVal.jstr "Token Not Present! 🔴")]
    ∧ (execChain [Authenticate, AddHeader] GetDatahandler (mkContext noTokenReq []) 0).1.respBody
        ≠ [("Message", JsonVal.jstr "Token Not Present!")] := by
  refine ⟨by decide, by decide⟩

/-- C2 (amended): on the token-gated `/getData` route, a request whose
`Token` header is exactly `auth` passes the gate and the terminal handler
executes once; a request with the header absent or any other value is
aborted with status 500 and the JSON body
`\x7b"Message":"Token Not Present! 🔴"\x7d`, and the terminal handler
never executes. -/
theorem C2_token_gate (req : Request) (ps : List (String × String)) :
    (headerGet req.headers "Token" = "auth" →
        execChain [Authenticate, AddHeader] GetDatahandler (mkContext req ps) 0
          = (GetDatahandler (AddHeader (mkContext req ps)), ([0, 1], 1)))
    ∧ (¬ headerGet req.headers "Token" = "auth" →
        execChain [Authenticate, AddHeader] GetDatahandler (mkContext req ps) 0
          = (abortWithStatusJSON 500 [("Message", JsonVal.jstr "Token Not Present! 🔴")]
               (mkContext req ps), ([0], 0))
        ∧ (abortWithStatusJSON 500 [("Message", JsonVal.jstr "Token Not Present! 🔴")]
             (mkContext req ps)).status = 500) := by
  constructor
  · intro htok
    have hA : Authenticate (mkContext req ps) = mkContext req ps := by
      unfold Authenticate
      rw [if_neg (by simp [mkContext, htok])]
    have h1 : (mkContext req ps).aborted = false := rfl
    have h2 : (AddHeader (mkContext req ps)).aborted = false := rfl
    simp [execChain, hA, h1, h2]
  · intro htok
    have hA : Authenticate (mkContext req ps)
        = abortWithStatusJSON 500 [("Message", JsonVal.jstr "Token Not Present! 🔴")]
            (mkContext req ps) := by
      unfold Authenticate
      rw [if_pos (by simpa [mkContext] using htok)]
    have h2 : (abortWithStatusJSON 500
        [("Message", JsonVal.jstr "Token Not Present! 🔴")] (mkContext req ps)).aborted
          = true := rfl
    exact ⟨by simp [execChain, hA, h2], rfl⟩

/-- C2 witness: a request with `Token: auth` reaches the handler; a
request without the header aborts with 500 and the source's body. -/
theorem C2_witness :
    execChain [Authenticate, AddHeader] GetDatahandler (mkContext tokenReq []) 0
        = (GetDatahandler (AddHeader (mkContext tokenReq [])), ([0, 1], 1))
    ∧ execChain [Authenticate, AddHeader] GetDatahandler (mkContext noTokenReq []) 0
        = (abortWithStatusJSON 500 [("Message", JsonVal.jstr "Token Not Present! 🔴")]
             (mkContext noTokenReq []), ([0], 0)) :=
  ⟨(C2_token_gate tokenReq []).1 (by decide),
   ((C2_token_gate noTokenReq []).2 (by decide)).1⟩

/-- C3: on a request whose body read fails, `GetBodyDataHandler` writes
the 500 JSON response and then reaches `log.Fatal`, terminating the whole
process — contradicting the claim that a body-read error never terminates
the service. -/
theorem C3_body_read_error_terminates_process :
    (GetBodyDataHandler (mkContext badBodyReq [])).2 = true
    ∧ (GetBodyDataHandler (mkContext badBodyReq [])).1.status = 500
    ∧ (GetBodyDataHandler (mkContext badBodyReq [])).1.respBody
        = [("ERROR ⚠️", JsonVal.jstr "unexpected EOF"), ("status", JsonVal.jnum 500)] :=
  ⟨rfl, rfl, rfl⟩

/-- C4: on an `/admin` route guarded by the Basic-Auth gate, a request
whose credential header matches some configured username/password pair
reaches the terminal handler (it executes once); any other credential or
a missing header aborts the chain with status 401 and the handler never
executes. -/
theorem C4_basic_auth_gate (req : Request) (ps : List (String × String)) (h : Handler) :
    ((∃ up ∈ accounts, headerGet req.headers "Authorization" = authValue up.1 up.2) →
        execChain [basicAuth accounts] h (mkContext req ps) 0
          = (h (mkContext req ps), ([0], 1)))
    ∧ ((∀ up ∈ accounts, ¬ headerGet req.headers "Authorization" = authValue up.1 up.2) →
        execChain [basicAuth accounts] h (mkContext req ps) 0
          = (abortWithStatus 401 (mkContext req ps), ([0], 0))
        ∧ (abortWithStatus 401 (mkContext req ps)).status = 401) := by
  constructor
  · rintro ⟨up, hup, heq⟩
    have hcond : accounts.any (fun x =>
        decide (authValue x.1 x.2
          = headerGet (mkContext req ps).request.headers "Authorization")) = true :=
      List.any_eq_true.mpr ⟨up, hup, by simp [mkContext, heq]⟩
    have hB : basicAuth accounts (mkContext req ps) = mkContext req ps := by
      unfold basicAuth
      rw [if_pos hcond]
    have h1 : (mkContext req ps).aborted = false := rfl
    simp [execChain, hB, h1]
  · intro hall
    have hcond : ¬ accounts.any (fun x =>
        decide (authValue x.1 x.2
          = headerGet (mkContext req ps).request.headers "Authorization")) = true := by
      intro hany
      rcases List.any_eq_true.mp hany with ⟨x, hx, hvv⟩
      exact hall x hx (by simpa [mkContext] using (of_decide_eq_true hvv).symm)
    have hB : basicAuth accounts (mkContext req ps)
        = abortWithStatus 401 (mkContext req ps) := by
      unfold basicAuth
      rw [if_neg hcond]
    have h2 : (abortWithStatus 401 (mkContext req ps)).aborted = true := rfl
    exact ⟨by simp [execChain, hB, h2], rfl⟩

/-- C4 witness: the `user:passw` credential (Base64 `dXNlcjpwYXNzdw==`)
reaches the handler; a request with no credential header aborts with
401. -/
theorem C4_witness :
    execChain [basicAuth accounts] GetQryDataHandler (mkContext adminReq []) 0
        = (GetQryDataHandler (mkContext adminReq []), ([0], 1))
    ∧ execChain [basicAuth accounts] GetQryDataHandler (mkContext noTokenReq []) 0
        = (abortWithStatus 401 (mkContext noTokenReq []), ([0], 0)) :=
  ⟨(C4_basic_auth_gate adminReq [] GetQryDataHandler).1
      ⟨("user", "passw"), by decide, by decide⟩,
   ((C4_basic_auth_gate noTokenReq [] GetQryDataHandler).2 (by decide)).1⟩

/-- C10: the `AddHeader` middleware sets response header `Key: Val`,
leaves the status, body, request, params, every other response header,
and the abort flag unchanged, and never short-circuits: on a
non-aborted context the executor always proceeds past it into the rest
of the chain. -/
theorem C10_AddHeader_frame (c : Context) :
    headerGet (AddHeader c).respHeaders "Key" = "Val"
    ∧ (AddHeader c).aborted = c.aborted
    ∧ (AddHeader c).status = c.status
    ∧ (AddHeader c).respBody = c.respBody
    ∧ (AddHeader c).request = c.request
    ∧ (AddHeader c).params = c.params
    ∧ (∀ k, k ≠ "Key" → headerGet (AddHeader c).respHeaders k = headerGet c.respHeaders k)
    ∧ (∀ (ms : List Middleware) (h : Handler) (i : Nat), c.aborted = false →
        execChain (AddHeader :: ms) h c i
          = ((execChain ms h (AddHeader c) (i + 1)).1,
             (i :: (execChain ms h (AddHeader c) (i + 1)).2.1,
              (execChain ms h (AddHeader c) (i + 1)).2.2))) := by
  refine ⟨?_, rfl, rfl, rfl, rfl, rfl, ?_, ?_⟩
  · show headerGet (("Key", "Val") :: c.respHeaders.filter (fun p => p.1 ≠ "Key")) "Key" = "Val"
    have h0 : lookupKV "Key" (("Key", "Val") :: c.respHeaders.filter (fun p => p.1 ≠ "Key"))
        = some "Val" := by
      unfold lookupKV
      rw [if_pos rfl]
    unfold headerGet
    rw [h0]
  · intro k hk
    have hKk : ¬ ("Key" = k) := fun h => hk h.symm
    have h1 : ∀ l : List (String × String),
        lookupKV k (("Key", "Val") :: l) = lookupKV k l := by
      intro l
      show (if "Key" = k then some "Val" else lookupKV k l) = lookupKV k l
      rw [if_neg hKk]
    show headerGet (("Key", "Val") :: c.respHeaders.filter (fun p => p.1 ≠ "Key")) k
        = headerGet c.respHeaders k
    unfold headerGet
    rw [h1, lookupKV_filter_ne k "Key" hk]

  · intro ms h i hab
    have h2 : (AddHeader c).aborted = false := hab
    simp [execChain, h2]

/-- C10 witness: on a context with an existing `Other: x` response header,
`AddHeader` adds `Key: Val`, keeps `Other: x`, and the executor continues
into the terminal handler. -/
theorem C10_witness :
    headerGet (AddHeader sampleCtx).respHeaders "Key" = "Val"
    ∧ headerGet (AddHeader sampleCtx).respHeaders "Other" = headerGet sampleCtx.respHeaders "Other"
    ∧ execChain [AddHeader] GetDatahandler sampleCtx 0
        = ((execChain [] GetDatahandler (AddHeader sampleCtx) 1).1,
           (0 :: (execChain [] GetDatahandler (AddHeader sampleCtx) 1).2.1,
            (execChain [] GetDatahandler (AddHeader sampleCtx) 1).2.2)) :=
  ⟨(C10_AddHeader_frame sampleCtx).1,
   (C10_AddHeader_frame sampleCtx).2.2.2.2.2.2.1 "Other" (by decide),
   (C10_AddHeader_frame sampleCtx).2.2.2.2.2.2.2 [] GetDatahandler 0 (by decide)⟩

/-- C6: (a) whenever a pattern with a named-parameter segment matches a
concrete path, the parameter is bound to the exact non-empty substring at
that segment position; (b) when a literal-segment route and a
parameter-segment route (identical up to that position) both match the
same path, `resolve` deterministically returns the literal (static) route,
whichever order the two are registered in. -/
theorem C6_param_binding_and_static_priority :
    (∀ (ps : List Segment) (xs : List String) (bs : List (String × String)),
        matchSegs ps xs = some bs →
        ∀ (i : Nat) (n : String), ps[i]? = some (Segment.param n) →
        ∃ x, xs[i]? = some x ∧ x ≠ "" ∧ (n, x) ∈ bs)
    ∧ (∀ (method s n : String) (pre t1 t2 : List Segment) (path : List String)
          (bs1 bs2 : List (String × String)),
        matchSegs (pre ++ Segment.lit s :: t1) path = some bs1 →
        matchSegs (pre ++ Segment.param n :: t2) path = some bs2 →
        resolve [⟨method, pre ++ Segment.lit s :: t1⟩, ⟨method, pre ++ Segment.param n :: t2⟩]
            method path = some (⟨method, pre ++ Segment.lit s :: t1⟩, bs1)
        ∧ resolve [⟨method, pre ++ Segment.param n :: t2⟩, ⟨method, pre ++ Segment.lit s :: t1⟩]
            method path = some (⟨method, pre ++ Segment.lit s :: t1⟩, bs1)) := by
  constructor
  · exact matchSegs_binds
  · intro method s n pre t1 t2 path bs1 bs2 hm1 hm2
    have hps : prefersOver (pre ++ Segment.lit s :: t1) (pre ++ Segment.param n :: t2) = true := by
      rw [prefersOver_append]
      rfl
    have hpd : prefersOver (pre ++ Segment.param n :: t2) (pre ++ Segment.lit s :: t1) = false := by
      rw [prefersOver_append]
      rfl
    constructor
    · simp [resolve, pickRoute, hm1, hm2, hpd]
    · simp [resolve, pickRoute, hm1, hm2, hps]

/-- C6 witness: the `/get-UrlParams/:name/:age` pattern binds `name` to
the exact path segment, and a static sibling beats the parameter route in
either registration order. -/
theorem C6_witness :
    (∃ x, (["get-UrlParams", "Skyy", "30"] : List String)[1]? = some x ∧ x ≠ ""
        ∧ ("name", x) ∈ [("name", "Skyy"), ("age", "30")])
    ∧ resolve [⟨"GET", [Segment.lit "get-UrlParams", Segment.lit "static"]⟩,
               ⟨"GET", [Segment.lit "get-UrlParams", Segment.param "name"]⟩] "GET"
          ["get-UrlParams", "static"]
        = some (⟨"GET", [Segment.lit "get-UrlParams", Segment.lit "static"]⟩, [])
    ∧ resolve [⟨"GET", [Segment.lit "get-UrlParams", Segment.param "name"]⟩,
               ⟨"GET", [Segment.lit "get-UrlParams", Segment.lit "static"]⟩] "GET"
          ["get-UrlParams", "static"]
        = some (⟨"GET", [Segment.lit "get-UrlParams", Segment.lit "static"]⟩, []) := by
  refine ⟨?_, ?_, ?_⟩
  · exact C6_param_binding_and_static_priority.1
      [Segment.lit "get-UrlParams", Segment.param "name", Segment.param "age"]
      ["get-UrlParams", "Skyy", "30"] [("name", "Skyy"), ("age", "30")]
      (by decide) 1 "name" (by decide)
  · exact (C6_param_binding_and_static_priority.2 "GET" "static" "name"
      [Segment.lit "get-UrlParams"] [] [] ["get-UrlParams", "static"] [] [("name", "static")]
      (by decide) (by decide)).1
  · exact (C6_param_binding_and_static_priority.2 "GET" "static" "name"
      [Segment.lit "get-UrlParams"] [] [] ["get-UrlParams", "static"] [] [("name", "static")]
      (by decide) (by decide)).2

/-- C9: the `/getData` handler's rendered JSON body is the same byte
string for every request — repeating an identical GET request any number
of times yields byte-identical bodies with the keys serialized in the same
(sorted) order, and the status is always 200. -/
theorem C9_getData_deterministic (c1 c2 : Context) :
    renderJSON (GetDatahandler c1).respBody = renderJSON (GetDatahandler c2).respBody
    ∧ renderJSON (GetDatahandler c1).respBody
        = "\x7b\"data\":\"Hi! I am GetDataHandler method() 🟢\",\"status_code\":200\x7d"
    ∧ (GetDatahandler c1).status = 200 := by
  refine ⟨rfl, ?_, rfl⟩
  have hb : (GetDatahandler c1).respBody
      = [("data", JsonVal.jstr "Hi! I am GetDataHandler method() 🟢"),
         ("status_code", JsonVal.jnum 200)] := rfl
  rw [hb]
  decide

end GinSpec
